import Mathlib

/-!
Verification of the render-box core (`src/servo/layout/box.rs`): the
`split_to_width` line-breaking algorithm, `get_pref_width` preferred-width
measurement, and `build_display_list` display-list emission, over a shallow
embedding.  External collaborators (the geometry crate, the computed-style
view, the text metrics provider, the image subsystem and the display-list
item types) are modelled from the specification's interface descriptions;
the algorithms themselves are translated from the source.
-/

set_option maxRecDepth 4000

namespace ServoBox

/-- Modelled from the spec: app units, the layout length unit (`au` is an
integer unit in the geometry interface). -/
abbrev au := Int

/-- Modelled from the spec: a 2-D point in app units (geometry interface). -/
structure Point2D where
  x : au
  y : au
  deriving Repr, DecidableEq

/-- Modelled from the spec: a 2-D size in app units (geometry interface). -/
structure Size2D where
  width : au
  height : au
  deriving Repr, DecidableEq

/-- Modelled from the spec: a rectangle, origin plus size (geometry interface). -/
structure Rect where
  origin : Point2D
  size : Size2D
  deriving Repr, DecidableEq

/-- Modelled from the spec: translation of a rectangle by an offset
(geometry interface). -/
def Rect.translate (r : Rect) (p : Point2D) : Rect :=
  { origin := { x := r.origin.x + p.x, y := r.origin.y + p.y }, size := r.size }

/-- Modelled from the spec: rectangle intersection test used by the
dirty-rectangle visibility cull (geometry interface): the rectangles overlap
with positive area in both axes. -/
def Rect.intersects (a b : Rect) : Bool :=
  decide (a.origin.x < b.origin.x + b.size.width) &&
  decide (b.origin.x < a.origin.x + a.size.width) &&
  decide (a.origin.y < b.origin.y + b.size.height) &&
  decide (b.origin.y < a.origin.y + a.size.height)

/-- Modelled from the spec: an RGBA color from the style system; the alpha
channel is a fraction, compared fuzzily against zero. -/
structure Color where
  red : Nat
  green : Nat
  blue : Nat
  alpha : ℚ
  deriving Repr, DecidableEq

/-- Modelled from the spec: fully specified rgba constructor of the color
utility module. -/
def rgba (r g b : Nat) (a : ℚ) : Color :=
  { red := r, green := g, blue := b, alpha := a }

/-- Modelled from the spec: opaque rgb constructor of the color utility
module. -/
def rgb (r g b : Nat) : Color :=
  rgba r g b 1

/-- Modelled from the spec: the approximate-equality comparison applied to
the background alpha channel ("alpha not approximately zero"); values within
the fuzz threshold of one millionth count as equal.  Written by
cross-multiplication over the exact fraction representation: for positive
denominators, the absolute difference of a and b is below one millionth
exactly when the absolute cross difference of numerators, scaled by one
million, is below the product of the denominators. -/
def fuzzy_eq (a b : ℚ) : Bool :=
  decide ((a.num * (b.den : Int) - b.num * (a.den : Int)).natAbs * 1000000
    < a.den * b.den)

/-- Modelled from the spec: a CSS length value from the style system. -/
inductive Length where
  | Px (v : ℚ)
  | Em (v : ℚ)
  deriving Repr, DecidableEq

/-- Modelled from the spec: conversion from integral pixels to app units
(60 app units per pixel, the geometry interface's scale). -/
def au_from_px (x : Int) : au :=
  60 * x

/-- Modelled from the spec: conversion from fractional pixels to app units,
truncating toward zero like the source language's float-to-int cast (the
scaled value q * 60 equals the fraction with numerator q.num * 60 over
q.den, and toward-zero division is unaffected by common factors). -/
def au_from_frac_px (q : ℚ) : au :=
  Int.tdiv (q.num * 60) (q.den : Int)

/-- Modelled from the spec: a CSS property value, either specified or left
to the cascade (initial/inherit); only `Specified` is inspected here. -/
inductive CSSValue (α : Type) where
  | Initial
  | Inherit
  | Specified (v : α)
  deriving Repr, DecidableEq

/-- Modelled from the spec: the position mode of the computed style; only
absolute positioning changes behavior here. -/
inductive CSSPosition where
  | PosAbsolute
  | PosRelative
  | PosStatic
  deriving Repr, DecidableEq

/-- Modelled from the spec: a computed background-color value. -/
inductive BackgroundColorValue where
  | BgColor (c : Color)
  | BgColorTransparent
  deriving Repr, DecidableEq

/-- Modelled from the spec: a computed border-color value. -/
inductive BorderColorValue where
  | BdrColor (c : Color)
  deriving Repr, DecidableEq

/-- Modelled from the spec: the read-only computed-style view consumed per
box, exposing position mode, left/top lengths, background color, border
width and border color. -/
structure SpecifiedStyle where
  position : CSSValue CSSPosition
  left : CSSValue Length
  top : CSSValue Length
  background_color : CSSValue BackgroundColorValue
  border_width : CSSValue Length
  border_color : CSSValue BorderColorValue
  deriving Repr, DecidableEq

/-- Modelled from the spec: the originating content-tree node, consumed only
as a read-only computed-style lookup. -/
structure Node where
  style : SpecifiedStyle
  deriving Repr, DecidableEq

/-- Modelled from the spec: the external text metrics provider's view of a
shaped text run, as a bundle of query functions over `(offset, length)`
sub-ranges: indivisible-piece enumeration, aggregate advance width,
trimmable-whitespace classification, natural (hard-break) line enumeration,
per-glyph advances, and a serialized paintable form. -/
structure TextRun where
  indivisiblePieces : Nat → Nat → List (Nat × Nat)
  advanceForRange : Nat → Nat → au
  isTrimmableWS : Nat → Nat → Bool
  naturalLines : Nat → Nat → List (Nat × Nat)
  glyphAdvances : Nat → Nat → List au
  serial : Nat

/-- The payload of a Text box: a shared run plus an `(offset, length)`
range into it (`layout::text::TextBoxData`). -/
structure TextBoxData where
  run : TextRun
  offset : Nat
  length : Nat

/-- Modelled from the spec: decoded image pixel data, an opaque shared
handle. -/
abbrev ImageData := Nat

/-- Modelled from the spec: the image subsystem's holder, exposing an
optional intrinsic pixel size and optionally-available decoded data. -/
structure ImageHolder where
  size : Option Size2D
  image : Option ImageData

/-- The shared base record of every render box (`RenderBoxData`): the
originating node, an opaque owning-flow handle, the position rectangle
relative to the owning flow, the nominal font size and a debug id. -/
structure RenderBoxData where
  node : Node
  ctx : Nat
  position : Rect
  font_size : Length
  id : Int

/-- The render-box tagged union (`RenderBox`): Generic, Image, Text and
UnscannedText variants over the shared base record. -/
inductive RenderBox where
  | GenericBox (d : RenderBoxData)
  | ImageBox (d : RenderBoxData) (holder : ImageHolder)
  | TextBox (d : RenderBoxData) (data : TextBoxData)
  | UnscannedTextBox (d : RenderBoxData) (text : String)

/-- The shared-base accessor `d()`: every variant carries a
`RenderBoxData`. -/
def RenderBox.d : RenderBox → RenderBoxData
  | .GenericBox d => d
  | .ImageBox d _ => d
  | .TextBox d _ => d
  | .UnscannedTextBox d _ => d

/-- Whether the box is the UnscannedText variant. -/
def RenderBox.isUnscannedText : RenderBox → Bool
  | .UnscannedTextBox _ _ => true
  | _ => false

/-- The outcome of a splitting attempt (`SplitBoxResult`). -/
inductive SplitBoxResult where
  | CannotSplit (box : RenderBox)
  | SplitDidFit (left right : Option RenderBox)
  | SplitDidNotFit (left right : Option RenderBox)

/-- The left component of a split result, when the result has one. -/
def SplitBoxResult.leftBox : SplitBoxResult → Option RenderBox
  | .CannotSplit _ => none
  | .SplitDidFit l _ => l
  | .SplitDidNotFit l _ => l

/-- The Text-box range offset of a box, when it is a Text box. -/
def RenderBox.textOffset : RenderBox → Option Nat
  | .TextBox _ data => some data.offset
  | _ => none

/-- Modelled from the spec: `layout::text::adapt_textbox_with_range` (the
construction step of §4.3: a sub-range becomes a new Text box sharing the
original run and carrying the sub-range). -/
def adapt_textbox_with_range (d : RenderBoxData) (run : TextRun)
    (offset length : Nat) : RenderBox :=
  .TextBox d { run := run, offset := offset, length := length }

/-- The mutable local state of the `split_to_width` loop over indivisible
pieces: the piece counter `i`, the remaining width, the growing left range
and the undecided right range. -/
structure SplitState where
  i : Nat
  remainingWidth : au
  leftOffset : Nat
  leftLength : Nat
  rightOffset : Option Nat
  rightLength : Option Nat
  deriving Repr, DecidableEq

/-- The body of `split_to_width`'s `iter_indivisible_pieces_for_range`
loop, translated piece by piece: a fitting piece is either skipped (leading
trimmable whitespace of a line-initial box) or committed to the left range;
a non-fitting piece stops the loop (the closure returns `should_continue =
false`), deciding the right range. -/
def splitLoop (run : TextRun) (boxOffset boxLength : Nat) (startsLine : Bool) :
    SplitState → List (Nat × Nat) → SplitState
  | st, [] => st
  | st, (off, len) :: rest =>
    let advance := run.advanceForRange off len
    if advance ≤ st.remainingWidth then
      if startsLine && st.i == 0 && run.isTrimmableWS off len then
        splitLoop run boxOffset boxLength startsLine
          { st with i := st.i + 1, leftOffset := st.leftOffset + len } rest
      else
        splitLoop run boxOffset boxLength startsLine
          { st with i := st.i + 1, remainingWidth := st.remainingWidth - advance,
                    leftLength := st.leftLength + len } rest
    else
      if run.isTrimmableWS off len then
        if off + len < boxOffset + boxLength then
          { st with i := st.i + 1, rightOffset := some (off + len),
                    rightLength := some ((boxOffset + boxLength) - (off + len)) }
        else
          { st with i := st.i + 1 }
      else if off < boxLength + boxOffset then
        { st with i := st.i + 1, rightOffset := some off,
                  rightLength := some ((boxOffset + boxLength) - off) }
      else
        { st with i := st.i + 1 }

/-- The final loop state of `split_to_width` on a Text box's data: the loop
is run over the run's indivisible pieces for the box's range, from the
initial state (`i = 0`, the full width remaining, the left range seeded at
the box's offset with length zero, no right range). -/
def split_state_for (data : TextBoxData) (maxWidth : au) (startsLine : Bool) :
    SplitState :=
  splitLoop data.run data.offset data.length startsLine
    { i := 0, remainingWidth := maxWidth, leftOffset := data.offset,
      leftLength := 0, rightOffset := none, rightLength := none }
    (data.run.indivisiblePieces data.offset data.length)

/-- The assembly step of `split_to_width` on a Text box: a nonempty left
range becomes a left box (`None` otherwise); a decided right range becomes
a right box and the verdict is `SplitDidNotFit` exactly under
`i == 1 || left_box.is_none()`, else `SplitDidFit`; with no right range
the result is `SplitDidFit(left, None)`. -/
def split_text_result (d : RenderBoxData) (data : TextBoxData) (maxWidth : au)
    (startsLine : Bool) : SplitBoxResult :=
  let st := split_state_for data maxWidth startsLine
  let left_box : Option RenderBox :=
    if st.leftLength > 0 then
      some (adapt_textbox_with_range d data.run st.leftOffset st.leftLength)
    else none
  match st.rightOffset, st.rightLength with
  | some right_off, some right_len =>
    let right_box := adapt_textbox_with_range d data.run right_off right_len
    if st.i == 1 || left_box.isNone then
      .SplitDidNotFit left_box (some right_box)
    else
      .SplitDidFit left_box (some right_box)
  | _, _ => .SplitDidFit left_box none

/-- `split_to_width`: Generic and Image boxes cannot split and are returned
unchanged; an UnscannedText box is a fatal precondition violation; a Text
box runs the greedy piece loop and assembles left/right boxes and the
fit/no-fit verdict. -/
def split_to_width (box : RenderBox) (maxWidth : au) (startsLine : Bool) :
    Except String SplitBoxResult :=
  match box with
  | .GenericBox _ => .ok (.CannotSplit box)
  | .ImageBox _ _ => .ok (.CannotSplit box)
  | .UnscannedTextBox _ _ => .error "WAT: unscanned text box in split_to_width"
  | .TextBox d data => .ok (split_text_result d data maxWidth startsLine)

/-- Provider contract (spec §6): the indivisible pieces enumerated for a
range are consecutive, each starting where the previous one ended, the
first at the given start offset. -/
def chainFrom : Nat → List (Nat × Nat) → Bool
  | _, [] => true
  | o, p :: rest => p.1 == o && chainFrom (o + p.2) rest

/-- Provider contract (spec §6): indivisible pieces are nonempty
sub-ranges. -/
def piecesPositive (ps : List (Nat × Nat)) : Bool :=
  ps.all fun p => decide (0 < p.2)

/-- The total character length of a piece list. -/
def piecesLenSum (ps : List (Nat × Nat)) : Nat :=
  (ps.map Prod.snd).sum

/-- The total advance width of a piece list under a run's metrics. -/
def piecesAdvanceSum (run : TextRun) : List (Nat × Nat) → au
  | [] => 0
  | p :: rest => run.advanceForRange p.1 p.2 + piecesAdvanceSum run rest

/-- The summed per-glyph advance of one natural line
(`iter_glyphs_for_range` with `line_width += glyph.advance()`). -/
def lineAdvanceSum (run : TextRun) (lineOffset lineLength : Nat) : au :=
  (run.glyphAdvances lineOffset lineLength).foldl (fun w a => w + a) 0

/-- The `iter_natural_lines_for_range` loop of `get_pref_width` on a Text
box: a zero-length line (a lone newline) is skipped (`loop`), every other
line's summed glyph advance is folded into the running maximum. -/
def prefWidthLines (run : TextRun) : au → List (Nat × Nat) → au
  | maxLineWidth, [] => maxLineWidth
  | maxLineWidth, (lineOffset, lineLen) :: rest =>
    if lineLen == 0 then prefWidthLines run maxLineWidth rest
    else prefWidthLines run (max maxLineWidth (lineAdvanceSum run lineOffset lineLen)) rest

/-- `get_pref_width`: Generic boxes report zero; Image boxes report the
intrinsic pixel width (zero-size fallback) in app units; Text boxes report
the maximum natural-line advance sum over the box's range; UnscannedText is
a fatal precondition violation. -/
def get_pref_width (box : RenderBox) : Except String au :=
  match box with
  | .GenericBox _ => .ok 0
  | .ImageBox _ holder => .ok (au_from_px ((holder.size.getD { width := 0, height := 0 }).width))
  | .TextBox _ data =>
    .ok (prefWidthLines data.run 0 (data.run.naturalLines data.offset data.length))
  | .UnscannedTextBox _ _ => .error "unscanned text box in get_pref_width"

/-- A paint primitive of the display list, as appended by the emission
code: solid-color fill (red/green/blue only), text run slice, image blit,
and border stroke. -/
inductive DisplayItem where
  | SolidColor (bounds : Rect) (r g b : Nat)
  | Text (bounds : Rect) (runSerial : Nat) (offset length : Nat)
  | Image (bounds : Rect) (data : ImageData)
  | Border (bounds : Rect) (width : au) (r g b : Nat)

/-- Whether a primitive is a background fill. -/
def DisplayItem.isBackground : DisplayItem → Bool
  | .SolidColor _ _ _ _ => true
  | _ => false

/-- Whether a primitive is content (text or image). -/
def DisplayItem.isContent : DisplayItem → Bool
  | .Text _ _ _ _ => true
  | .Image _ _ => true
  | _ => false

/-- Whether a primitive is a border stroke. -/
def DisplayItem.isBorder : DisplayItem → Bool
  | .Border _ _ _ _ _ => true
  | _ => false

/-- `add_bgcolor_to_list`: resolve the background color (transparent if not
a specified color), and unless its alpha is fuzzily zero append a
solid-color fill carrying only the red, green and blue channels. -/
def add_bgcolor_to_list (box : RenderBox) (list : List DisplayItem)
    (absBounds : Rect) : List DisplayItem :=
  let bgcolor :=
    match box.d.node.style.background_color with
    | .Specified (.BgColor c) => c
    | _ => rgba 0 0 0 0
  if !(fuzzy_eq bgcolor.alpha 0) then
    list ++ [.SolidColor absBounds bgcolor.red bgcolor.green bgcolor.blue]
  else list

/-- `add_border_to_list`: when a border width is specified, expand the
absolute bounds outward by half the border width on each side and append a
border stroke in the specified border color (black fallback); otherwise
append nothing. -/
def add_border_to_list (box : RenderBox) (list : List DisplayItem)
    (absBounds : Rect) : List DisplayItem :=
  match box.d.node.style.border_width with
  | .Specified (.Px px) =>
    let borderWidth := au_from_frac_px px
    let expanded : Rect :=
      { origin := { x := absBounds.origin.x - Int.tdiv borderWidth 2,
                    y := absBounds.origin.y - Int.tdiv borderWidth 2 },
        size := { width := absBounds.size.width + borderWidth,
                  height := absBounds.size.height + borderWidth } }
    let color :=
      match box.d.node.style.border_color with
      | .Specified (.BdrColor c) => c
      | _ => rgb 0 0 0
    list ++ [.Border expanded borderWidth color.red color.green color.blue]
  | _ => list

/-- The local rectangle resolved by `build_display_list` before
translation: under specified absolute positioning the origin is overridden
by the style's specified left/top pixel lengths (falling back to the stored
origin per axis), keeping the stored size; otherwise the stored position is
used unchanged. -/
def box_bounds_for (box : RenderBox) : Rect :=
  let style := box.d.node.style
  match style.position with
  | .Specified .PosAbsolute =>
    let xOffset :=
      match style.left with
      | .Specified (.Px px) => au_from_frac_px px
      | _ => box.d.position.origin.x
    let yOffset :=
      match style.top with
      | .Specified (.Px px) => au_from_frac_px px
      | _ => box.d.position.origin.y
    { origin := { x := xOffset, y := yOffset }, size := box.d.position.size }
  | _ => box.d.position

/-- `build_display_list`: resolve the local rectangle, translate it by the
cumulative offset, and cull against the dirty rectangle before anything is
appended; otherwise append the background fill, then the variant's content
(text slice; image blit when decoded data is available; nothing for
Generic), then the border stroke.  An UnscannedText box is a fatal
precondition violation raised after the background step; since the output
list is shared mutable state, the error carries the list as already
mutated at the abort. -/
def build_display_list (box : RenderBox) (dirty : Rect) (offset : Point2D)
    (list : List DisplayItem) : Except (List DisplayItem) (List DisplayItem) :=
  let absBoxBounds := (box_bounds_for box).translate offset
  if !(absBoxBounds.intersects dirty) then .ok list
  else
    let list1 := add_bgcolor_to_list box list absBoxBounds
    match box with
    | .UnscannedTextBox _ _ => .error list1
    | .TextBox _ data =>
      .ok (add_border_to_list box
        (list1 ++ [.Text absBoxBounds data.run.serial data.offset data.length]) absBoxBounds)
    | .GenericBox _ => .ok (add_border_to_list box list1 absBoxBounds)
    | .ImageBox _ holder =>
      let list2 :=
        match holder.image with
        | some image => list1 ++ [.Image absBoxBounds image]
        | none => list1
      .ok (add_border_to_list box list2 absBoxBounds)

/-- The items a box's background step appends (the suffix
`add_bgcolor_to_list` adds to any list). -/
def bgcolorItems (box : RenderBox) (absBounds : Rect) : List DisplayItem :=
  add_bgcolor_to_list box [] absBounds

/-- The items a box's border step appends (the suffix `add_border_to_list`
adds to any list). -/
def borderItems (box : RenderBox) (absBounds : Rect) : List DisplayItem :=
  add_border_to_list box [] absBounds

/- Concrete fixtures used by witnesses and counterexamples. -/

/-- A computed style with nothing specified. -/
def plainStyle : SpecifiedStyle :=
  { position := .Initial, left := .Initial, top := .Initial,
    background_color := .Initial, border_width := .Initial,
    border_color := .Initial }

/-- A 10 by 10 rectangle at the origin. -/
def sampleRect : Rect :=
  { origin := { x := 0, y := 0 }, size := { width := 10, height := 10 } }

/-- A base record with nothing specified in its style. -/
def plainBoxData : RenderBoxData :=
  { node := { style := plainStyle }, ctx := 0, position := sampleRect,
    font_size := .Px 0, id := 0 }

/-- A computed style with a half-opaque background and a 2px border. -/
def decoratedStyle : SpecifiedStyle :=
  { position := .Initial, left := .Initial, top := .Initial,
    background_color := .Specified (.BgColor (rgba 10 20 30 (mkRat 1 2))),
    border_width := .Specified (.Px 2), border_color := .Initial }

/-- A base record with background and border specified. -/
def decoratedBoxData : RenderBoxData :=
  { node := { style := decoratedStyle }, ctx := 0, position := sampleRect,
    font_size := .Px 0, id := 0 }

/-- A computed style whose background alpha is nonzero but below the fuzz
threshold (half a millionth). -/
def tinyAlphaStyle : SpecifiedStyle :=
  { position := .Initial, left := .Initial, top := .Initial,
    background_color := .Specified (.BgColor (rgba 10 20 30 (mkRat 1 2000000))),
    border_width := .Initial, border_color := .Initial }

/-- A base record with the near-transparent background. -/
def tinyAlphaBoxData : RenderBoxData :=
  { node := { style := tinyAlphaStyle }, ctx := 0, position := sampleRect,
    font_size := .Px 0, id := 0 }

/-- A dirty rectangle covering everything near the origin. -/
def dirtyAll : Rect :=
  { origin := { x := -100, y := -100 }, size := { width := 1000, height := 1000 } }

/-- A dirty rectangle far away from the sample boxes. -/
def dirtyFar : Rect :=
  { origin := { x := 500, y := 500 }, size := { width := 10, height := 10 } }

/-- The zero cumulative offset. -/
def zeroOffset : Point2D := { x := 0, y := 0 }

/-- A run of one indivisible piece of advance 2 that is trimmable
whitespace. -/
def wsOverflowRun : TextRun :=
  { indivisiblePieces := fun _ _ => [(0, 1)],
    advanceForRange := fun _ _ => 2,
    isTrimmableWS := fun _ _ => true,
    naturalLines := fun _ _ => [],
    glyphAdvances := fun _ _ => [],
    serial := 0 }

/-- A run of two unit pieces of advance 1 each, the first of which is
trimmable whitespace. -/
def leadingWsRun : TextRun :=
  { indivisiblePieces := fun _ _ => [(0, 1), (1, 1)],
    advanceForRange := fun _ _ => 1,
    isTrimmableWS := fun o _ => o == 0,
    naturalLines := fun _ _ => [],
    glyphAdvances := fun _ _ => [],
    serial := 0 }

/-- A run of two non-whitespace unit pieces of advances 1 and 5. -/
def twoPieceRun : TextRun :=
  { indivisiblePieces := fun _ _ => [(0, 1), (1, 1)],
    advanceForRange := fun o _ => if o == 0 then 1 else 5,
    isTrimmableWS := fun _ _ => false,
    naturalLines := fun _ _ => [],
    glyphAdvances := fun _ _ => [],
    serial := 0 }

/-- A run of two non-whitespace unit pieces of advance 1 each. -/
def fittingRun : TextRun :=
  { indivisiblePieces := fun _ _ => [(0, 1), (1, 1)],
    advanceForRange := fun _ _ => 1,
    isTrimmableWS := fun _ _ => false,
    naturalLines := fun _ _ => [],
    glyphAdvances := fun _ _ => [],
    serial := 0 }

/-- A run of one non-whitespace unit piece of advance 5. -/
def bigPieceRun : TextRun :=
  { indivisiblePieces := fun _ _ => [(0, 1)],
    advanceForRange := fun _ _ => 5,
    isTrimmableWS := fun _ _ => false,
    naturalLines := fun _ _ => [],
    glyphAdvances := fun _ _ => [],
    serial := 0 }

/-- A run with three natural lines, of glyph-advance sums 7, 0 (a lone
newline, length zero) and 3. -/
def twoLineRun : TextRun :=
  { indivisiblePieces := fun _ _ => [],
    advanceForRange := fun _ _ => 0,
    isTrimmableWS := fun _ _ => false,
    naturalLines := fun _ _ => [(0, 2), (2, 0), (3, 2)],
    glyphAdvances := fun o _ => if o == 0 then [3, 4] else [2, 1],
    serial := 0 }

/-! Helper lemmas about the split loop. -/

theorem piecesAdvanceSum_nonneg (run : TextRun) (ps : List (Nat × Nat))
    (h : ∀ p ∈ ps, 0 ≤ run.advanceForRange p.1 p.2) :
    0 ≤ piecesAdvanceSum run ps := by
  induction ps with
  | nil => simp [piecesAdvanceSum]
  | cons p rest ih =>
    have h1 := h p (by simp)
    have h2 := ih fun q hq => h q (by simp [hq])
    rw [piecesAdvanceSum]
    exact add_nonneg h1 h2

/-- Once at least one piece has been examined (`i ≠ 0`), the left offset
never changes again: the leading-whitespace skip applies only to the very
first piece. -/
theorem splitLoop_leftOffset_stable (run : TextRun) (boxOffset boxLength : Nat)
    (startsLine : Bool) (ps : List (Nat × Nat)) (st : SplitState)
    (h : st.i ≠ 0) :
    (splitLoop run boxOffset boxLength startsLine st ps).leftOffset
      = st.leftOffset := by
  induction ps generalizing st with
  | nil => rfl
  | cons p rest ih =>
    obtain ⟨off, len⟩ := p
    have hbeq : (st.i == 0) = false := by simp [h]
    unfold splitLoop
    by_cases hfit : run.advanceForRange off len ≤ st.remainingWidth
    · rw [if_pos hfit, hbeq]
      simp only [Bool.and_false, Bool.false_and, Bool.false_eq_true, if_false]
      exact ih _ (by simp)
    · rw [if_neg hfit]
      split
      · split <;> rfl
      · split <;> rfl

/-- When every remaining piece's advance fits (the advances are nonnegative
and sum to at most the remaining width) and the first piece is past
(`i ≠ 0`), the loop commits every piece: the counter grows by the number of
pieces, the remaining width shrinks by their total advance, the left length
grows by their total length, and nothing else changes. -/
theorem splitLoop_all_fit (run : TextRun) (boxOffset boxLength : Nat)
    (startsLine : Bool) (ps : List (Nat × Nat)) (st : SplitState)
    (hi : st.i ≠ 0)
    (hnonneg : ∀ p ∈ ps, 0 ≤ run.advanceForRange p.1 p.2)
    (hsum : piecesAdvanceSum run ps ≤ st.remainingWidth) :
    splitLoop run boxOffset boxLength startsLine st ps
      = { st with i := st.i + ps.length,
                  remainingWidth := st.remainingWidth - piecesAdvanceSum run ps,
                  leftLength := st.leftLength + piecesLenSum ps } := by
  induction ps generalizing st with
  | nil =>
    obtain ⟨i0, w0, lo0, ll0, ro0, rl0⟩ := st
    simp [splitLoop, piecesAdvanceSum, piecesLenSum]
  | cons p rest ih =>
    obtain ⟨off, len⟩ := p
    obtain ⟨i0, w0, lo0, ll0, ro0, rl0⟩ := st
    have hrest_nonneg : ∀ q ∈ rest, 0 ≤ run.advanceForRange q.1 q.2 :=
      fun q hq => hnonneg q (by simp [hq])
    have hrest0 : 0 ≤ piecesAdvanceSum run rest :=
      piecesAdvanceSum_nonneg run rest hrest_nonneg
    have hs : run.advanceForRange off len + piecesAdvanceSum run rest ≤ w0 := hsum
    have hfit : run.advanceForRange off len ≤ w0 := by linarith
    simp only at hi
    have hbeq : (i0 == 0) = false := by simp [hi]
    unfold splitLoop
    simp only
    rw [if_pos hfit, hbeq]
    simp only [Bool.and_false, Bool.false_and, Bool.false_eq_true, if_false]
    rw [ih _ (by simp) hrest_nonneg (by simp only; linarith)]
    rw [show piecesAdvanceSum run ((off, len) :: rest)
        = run.advanceForRange off len + piecesAdvanceSum run rest from rfl]
    simp only [SplitState.mk.injEq, piecesLenSum, List.map_cons, List.sum_cons,
      List.length_cons]
    refine ⟨?_, ?_, ?_, ?_, ?_, ?_⟩ <;> first | rfl | omega | ring_nf

/-- The left box assembled by `split_to_width` on a Text box: the left
range when nonempty, `none` otherwise. -/
def left_box_for (d : RenderBoxData) (data : TextBoxData) (maxWidth : au)
    (startsLine : Bool) : Option RenderBox :=
  let st := split_state_for data maxWidth startsLine
  if st.leftLength > 0 then
    some (adapt_textbox_with_range d data.run st.leftOffset st.leftLength)
  else none

/-- Whatever verdict `split_text_result` returns, the left component is
the assembled left box. -/
theorem split_text_result_leftBox (d : RenderBoxData) (data : TextBoxData)
    (maxWidth : au) (startsLine : Bool) :
    (split_text_result d data maxWidth startsLine).leftBox
      = left_box_for d data maxWidth startsLine := by
  unfold split_text_result left_box_for
  rcases hro : (split_state_for data maxWidth startsLine).rightOffset with _ | ro <;>
    rcases hrl : (split_state_for data maxWidth startsLine).rightLength with _ | rl <;>
      simp only [hro, hrl]
  case none.none => simp [SplitBoxResult.leftBox]
  case none.some => simp [SplitBoxResult.leftBox]
  case some.none => simp [SplitBoxResult.leftBox]
  case some.some => split <;> (split <;> simp [SplitBoxResult.leftBox])

/-! Helper lemmas about the display-list emission steps. -/

theorem add_bgcolor_to_list_eq_append (box : RenderBox) (list : List DisplayItem)
    (absBounds : Rect) :
    add_bgcolor_to_list box list absBounds = list ++ bgcolorItems box absBounds := by
  unfold bgcolorItems add_bgcolor_to_list
  split <;> (simp only [List.nil_append]; split <;> simp)

theorem add_border_to_list_eq_append (box : RenderBox) (list : List DisplayItem)
    (absBounds : Rect) :
    add_border_to_list box list absBounds = list ++ borderItems box absBounds := by
  unfold borderItems add_border_to_list
  split <;> simp

theorem bgcolorItems_all_background (box : RenderBox) (absBounds : Rect) :
    ∀ it ∈ bgcolorItems box absBounds, it.isBackground = true := by
  unfold bgcolorItems add_bgcolor_to_list
  split <;> simp [DisplayItem.isBackground]

theorem borderItems_all_border (box : RenderBox) (absBounds : Rect) :
    ∀ it ∈ borderItems box absBounds, it.isBorder = true := by
  unfold borderItems add_border_to_list
  split <;> simp [DisplayItem.isBorder]

/-- A specified background color that is not fuzzily transparent appends
exactly one fill, carrying only its red, green and blue channels. -/
theorem add_bgcolor_specified_eq (box : RenderBox) (list : List DisplayItem)
    (absBounds : Rect) (c : Color)
    (hbg : box.d.node.style.background_color = .Specified (.BgColor c))
    (halpha : fuzzy_eq c.alpha 0 = false) :
    add_bgcolor_to_list box list absBounds
      = list ++ [.SolidColor absBounds c.red c.green c.blue] := by
  unfold add_bgcolor_to_list
  rw [hbg]
  simp [halpha]

/-- C6: if the absolute bounds of a (non-UnscannedText) box do not
intersect the dirty rectangle, `build_display_list` appends nothing at all:
the output list is the input list unchanged. -/
theorem build_display_list_culled (box : RenderBox) (dirty : Rect)
    (offset : Point2D) (list : List DisplayItem)
    (_hvar : box.isUnscannedText = false)
    (hcull : ((box_bounds_for box).translate offset).intersects dirty = false) :
    build_display_list box dirty offset list = .ok list := by
  unfold build_display_list
  simp [hcull]

/-- C6 witness: a decorated Generic box against a far-away dirty rectangle
emits nothing. -/
theorem build_display_list_culled_witness :
    build_display_list (.GenericBox decoratedBoxData) dirtyFar zeroOffset []
      = .ok [] :=
  build_display_list_culled (.GenericBox decoratedBoxData) dirtyFar zeroOffset []
    rfl (by decide)

/-- C7: when a (non-UnscannedText) box passes the visibility test, the
primitives it appends come in the fixed order background fill, then
content, then border stroke, after the unchanged input list. -/
theorem build_display_list_ordering (box : RenderBox) (dirty : Rect)
    (offset : Point2D) (list : List DisplayItem)
    (hvar : box.isUnscannedText = false)
    (hint : ((box_bounds_for box).translate offset).intersects dirty = true) :
    ∃ bg content border,
      build_display_list box dirty offset list
        = .ok (list ++ bg ++ content ++ border)
      ∧ (∀ it ∈ bg, it.isBackground = true)
      ∧ (∀ it ∈ content, it.isContent = true)
      ∧ (∀ it ∈ border, it.isBorder = true) := by
  match box with
  | .UnscannedTextBox _ _ => simp [RenderBox.isUnscannedText] at hvar
  | .GenericBox d =>
    refine ⟨bgcolorItems (.GenericBox d) ((box_bounds_for (.GenericBox d)).translate offset),
      [], borderItems (.GenericBox d) ((box_bounds_for (.GenericBox d)).translate offset),
      ?_, ?_, ?_, ?_⟩
    · unfold build_display_list
      simp [hint, add_bgcolor_to_list_eq_append, add_border_to_list_eq_append]
    · exact bgcolorItems_all_background _ _
    · simp
    · exact borderItems_all_border _ _
  | .TextBox d data =>
    refine ⟨bgcolorItems (.TextBox d data) ((box_bounds_for (.TextBox d data)).translate offset),
      [.Text ((box_bounds_for (.TextBox d data)).translate offset)
        data.run.serial data.offset data.length],
      borderItems (.TextBox d data) ((box_bounds_for (.TextBox d data)).translate offset),
      ?_, ?_, ?_, ?_⟩
    · unfold build_display_list
      simp [hint, add_bgcolor_to_list_eq_append, add_border_to_list_eq_append]
    · exact bgcolorItems_all_background _ _
    · simp [DisplayItem.isContent]
    · exact borderItems_all_border _ _
  | .ImageBox d holder =>
    refine ⟨bgcolorItems (.ImageBox d holder) ((box_bounds_for (.ImageBox d holder)).translate offset),
      (match holder.image with
       | some image =>
         [DisplayItem.Image ((box_bounds_for (.ImageBox d holder)).translate offset) image]
       | none => []),
      borderItems (.ImageBox d holder) ((box_bounds_for (.ImageBox d holder)).translate offset),
      ?_, ?_, ?_, ?_⟩
    · unfold build_display_list
      cases himg : holder.image <;>
        simp [hint, himg, add_bgcolor_to_list_eq_append, add_border_to_list_eq_append]
    · exact bgcolorItems_all_background _ _
    · cases himg : holder.image <;> simp [himg, DisplayItem.isContent]
    · exact borderItems_all_border _ _

/-- C7 witness: a decorated Text box against a covering dirty rectangle
emits background, content and border in order. -/
theorem build_display_list_ordering_witness :
    ∃ bg content border,
      build_display_list
          (.TextBox decoratedBoxData { run := twoLineRun, offset := 3, length := 4 })
          dirtyAll zeroOffset []
        = .ok ([] ++ bg ++ content ++ border)
      ∧ (∀ it ∈ bg, it.isBackground = true)
      ∧ (∀ it ∈ content, it.isContent = true)
      ∧ (∀ it ∈ border, it.isBorder = true) :=
  build_display_list_ordering
    (.TextBox decoratedBoxData { run := twoLineRun, offset := 3, length := 4 })
    dirtyAll zeroOffset [] rfl (by decide)

/-- C8: `split_to_width` on a Generic or Image box returns `CannotSplit`
carrying the box itself unchanged, and on an UnscannedText box it is a
fatal failure rather than a recoverable value. -/
theorem split_to_width_non_text (d : RenderBoxData) (holder : ImageHolder)
    (text : String) (maxWidth : au) (startsLine : Bool) :
    split_to_width (.GenericBox d) maxWidth startsLine
        = .ok (.CannotSplit (.GenericBox d))
    ∧ split_to_width (.ImageBox d holder) maxWidth startsLine
        = .ok (.CannotSplit (.ImageBox d holder))
    ∧ split_to_width (.UnscannedTextBox d text) maxWidth startsLine
        = .error "WAT: unscanned text box in split_to_width" :=
  ⟨rfl, rfl, rfl⟩

/-- C9 counterexample: a background color whose alpha is nonzero (half a
millionth) but within the fuzz threshold causes `add_bgcolor_to_list` to
append no fill primitive at all, contradicting the claim that any nonzero
alpha yields an (opaque) fill. -/
theorem add_bgcolor_tiny_alpha_cex :
    add_bgcolor_to_list (.GenericBox tinyAlphaBoxData) [] sampleRect = []
    ∧ (mkRat 1 2000000 : ℚ) ≠ 0 :=
  ⟨rfl, by decide⟩

/-- C9 (amended): when the specified background color's alpha is not
approximately zero (it fails the fuzzy zero test), the appended fill
primitive carries only the red, green and blue channels; the alpha is
discarded, so the fill is fully opaque. -/
theorem add_bgcolor_discards_alpha (box : RenderBox) (list : List DisplayItem)
    (absBounds : Rect) (c : Color)
    (hbg : box.d.node.style.background_color = .Specified (.BgColor c))
    (halpha : fuzzy_eq c.alpha 0 = false) :
    add_bgcolor_to_list box list absBounds
      = list ++ [.SolidColor absBounds c.red c.green c.blue] :=
  add_bgcolor_specified_eq box list absBounds c hbg halpha

/-- C9 witness: a half-opaque (alpha one half) background is emitted as an
opaque red/green/blue fill. -/
theorem add_bgcolor_discards_alpha_witness :
    add_bgcolor_to_list (.GenericBox decoratedBoxData) [] sampleRect
      = [] ++ [.SolidColor sampleRect 10 20 30] :=
  add_bgcolor_discards_alpha (.GenericBox decoratedBoxData) [] sampleRect
    (rgba 10 20 30 (mkRat 1 2)) rfl (by decide)

/-- C10: on a visible UnscannedText box with a non-transparent specified
background, `build_display_list` appends the background fill before
raising the fatal failure: the abort is not atomic, the shared output
list already holds the fill when the operation fails. -/
theorem build_display_list_unscanned_mutates (d : RenderBoxData)
    (text : String) (dirty : Rect) (offset : Point2D)
    (list : List DisplayItem) (c : Color)
    (hint : ((box_bounds_for (.UnscannedTextBox d text)).translate offset).intersects
        dirty = true)
    (hbg : d.node.style.background_color = .Specified (.BgColor c))
    (halpha : fuzzy_eq c.alpha 0 = false) :
    build_display_list (.UnscannedTextBox d text) dirty offset list
      = .error (list ++
          [.SolidColor ((box_bounds_for (.UnscannedTextBox d text)).translate offset)
            c.red c.green c.blue]) := by
  unfold build_display_list
  simp only [hint, Bool.not_true, Bool.false_eq_true, if_false]
  rw [add_bgcolor_specified_eq (.UnscannedTextBox d text) list _ c hbg halpha]

/-- C10 witness: a visible UnscannedText box with the half-opaque
background fails with the fill already on the list. -/
theorem build_display_list_unscanned_mutates_witness :
    build_display_list (.UnscannedTextBox decoratedBoxData "x") dirtyAll zeroOffset []
      = .error ([] ++
          [.SolidColor ((box_bounds_for (.UnscannedTextBox decoratedBoxData "x")).translate
            zeroOffset) 10 20 30]) :=
  build_display_list_unscanned_mutates decoratedBoxData "x" dirtyAll zeroOffset []
    (rgba 10 20 30 (mkRat 1 2)) (by decide) rfl (by decide)

/-- C1 counterexample: a box whose single indivisible piece is trimmable
whitespace of advance 2 against width 1: the first piece's advance exceeds
the width, yet the result is `SplitDidFit(None, None)`, not
`SplitDidNotFit(None, Some(whole-range box))` as claimed. -/
theorem split_first_ws_overflow_cex :
    (1 : au) < wsOverflowRun.advanceForRange 0 1
    ∧ wsOverflowRun.indivisiblePieces 0 1 = [(0, 1)]
    ∧ split_to_width
        (.TextBox plainBoxData { run := wsOverflowRun, offset := 0, length := 1 }) 1 false
        = .ok (.SplitDidFit none none)
    ∧ split_to_width
        (.TextBox plainBoxData { run := wsOverflowRun, offset := 0, length := 1 }) 1 false
        ≠ .ok (.SplitDidNotFit none
            (some (adapt_textbox_with_range plainBoxData wsOverflowRun 0 1))) := by
  refine ⟨by decide, rfl, rfl, fun h => ?_⟩
  exact SplitBoxResult.noConfusion (Except.ok.inj h)

/-- C1 (amended): if the first indivisible piece's advance exceeds the
width and that piece is not trimmable whitespace, the result is
`SplitDidNotFit(None, Some(whole-range box))` (given the provider contract
for the piece enumeration: consecutive nonempty pieces starting at the
box's offset and covering its length). -/
theorem split_first_piece_overflow (d : RenderBoxData) (data : TextBoxData)
    (maxWidth : au) (startsLine : Bool) (p0 : Nat × Nat) (rest : List (Nat × Nat))
    (hp : data.run.indivisiblePieces data.offset data.length = p0 :: rest)
    (hchain : chainFrom data.offset (p0 :: rest) = true)
    (hpos : piecesPositive (p0 :: rest) = true)
    (hlen : piecesLenSum (p0 :: rest) = data.length)
    (hadv : maxWidth < data.run.advanceForRange p0.1 p0.2)
    (hws : data.run.isTrimmableWS p0.1 p0.2 = false) :
    split_to_width (.TextBox d data) maxWidth startsLine
      = .ok (.SplitDidNotFit none
          (some (adapt_textbox_with_range d data.run data.offset data.length))) := by
  obtain ⟨off0, len0⟩ := p0
  have hoff : off0 = data.offset := by
    have h1 := hchain
    rw [chainFrom] at h1
    simp only [Bool.and_eq_true, beq_iff_eq] at h1
    exact h1.1
  subst hoff
  have hlen0 : 0 < len0 := by
    have h1 := hpos
    simp only [piecesPositive, List.all_cons, Bool.and_eq_true, decide_eq_true_eq] at h1
    exact h1.1
  have hlenpos : 0 < data.length := by
    have h1 : len0 + piecesLenSum rest = data.length := by
      rw [← hlen]; simp [piecesLenSum]
    omega
  have hnot : ¬ (data.run.advanceForRange data.offset len0 ≤ maxWidth) :=
    not_le.mpr hadv
  have hofflt : data.offset < data.length + data.offset := by omega
  have hst : split_state_for data maxWidth startsLine
      = { i := 1, remainingWidth := maxWidth, leftOffset := data.offset,
          leftLength := 0, rightOffset := some data.offset,
          rightLength := some data.length } := by
    unfold split_state_for
    rw [hp]
    simp [splitLoop, hnot, hws, hofflt, Nat.add_sub_cancel_left]
  simp [split_to_width, split_text_result, hst]

/-- C1 witness: a single non-whitespace piece of advance 5 against width 3
yields `SplitDidNotFit(None, Some(whole-range box))`. -/
theorem split_first_piece_overflow_witness :
    split_to_width (.TextBox plainBoxData { run := bigPieceRun, offset := 0, length := 1 }) 3 false
      = .ok (.SplitDidNotFit none
          (some (adapt_textbox_with_range plainBoxData bigPieceRun 0 1))) :=
  split_first_piece_overflow plainBoxData { run := bigPieceRun, offset := 0, length := 1 }
    3 false (0, 1) [] rfl rfl rfl rfl (by decide) rfl

/-- C2 counterexample: a two-piece box (leading trimmable whitespace, then
content, advances 1 each) split at width 10 with `starts_line = true`: the
total advance 2 fits, yet the left result covers only `(1, 1)` — the
leading whitespace is trimmed out of it — not the whole range `(0, 2)` as
claimed. -/
theorem split_sum_fits_leading_ws_cex :
    piecesAdvanceSum leadingWsRun (leadingWsRun.indivisiblePieces 0 2) = 2
    ∧ ((2 : au) ≤ 10)
    ∧ split_to_width
        (.TextBox plainBoxData { run := leadingWsRun, offset := 0, length := 2 }) 10 true
        = .ok (.SplitDidFit
            (some (adapt_textbox_with_range plainBoxData leadingWsRun 1 1)) none)
    ∧ split_to_width
        (.TextBox plainBoxData { run := leadingWsRun, offset := 0, length := 2 }) 10 true
        ≠ .ok (.SplitDidFit
            (some (adapt_textbox_with_range plainBoxData leadingWsRun 0 2)) none) := by
  refine ⟨rfl, by decide, rfl, fun h => ?_⟩
  have h2 := Except.ok.inj h
  rw [show split_text_result plainBoxData { run := leadingWsRun, offset := 0, length := 2 }
      10 true
      = .SplitDidFit (some (adapt_textbox_with_range plainBoxData leadingWsRun 1 1)) none
    from rfl] at h2
  simp [adapt_textbox_with_range] at h2

/-- C2 (amended): if the advances of all indivisible pieces are
nonnegative and sum to at most the width, and leading-whitespace trimming
does not apply (the box does not start a line, or its first piece is not
trimmable whitespace), the result is
`SplitDidFit(Some(whole-range box), None)` (given the provider contract:
nonempty pieces covering the box's length). -/
theorem split_all_pieces_fit (d : RenderBoxData) (data : TextBoxData)
    (maxWidth : au) (startsLine : Bool) (p0 : Nat × Nat) (rest : List (Nat × Nat))
    (hp : data.run.indivisiblePieces data.offset data.length = p0 :: rest)
    (hpos : piecesPositive (p0 :: rest) = true)
    (hlen : piecesLenSum (p0 :: rest) = data.length)
    (hnonneg : ∀ p ∈ p0 :: rest, 0 ≤ data.run.advanceForRange p.1 p.2)
    (hsum : piecesAdvanceSum data.run (p0 :: rest) ≤ maxWidth)
    (hskip : startsLine = false ∨ data.run.isTrimmableWS p0.1 p0.2 = false) :
    split_to_width (.TextBox d data) maxWidth startsLine
      = .ok (.SplitDidFit
          (some (adapt_textbox_with_range d data.run data.offset data.length)) none) := by
  obtain ⟨off0, len0⟩ := p0
  have hrest_nonneg : ∀ q ∈ rest, 0 ≤ data.run.advanceForRange q.1 q.2 :=
    fun q hq => hnonneg q (by simp [hq])
  have hrest0 : 0 ≤ piecesAdvanceSum data.run rest :=
    piecesAdvanceSum_nonneg data.run rest hrest_nonneg
  have hs : data.run.advanceForRange off0 len0 + piecesAdvanceSum data.run rest
      ≤ maxWidth := hsum
  have hadv0 : data.run.advanceForRange off0 len0 ≤ maxWidth := by linarith
  have hlen0 : 0 < len0 := by
    have h1 := hpos
    simp only [piecesPositive, List.all_cons, Bool.and_eq_true, decide_eq_true_eq] at h1
    exact h1.1
  have hll : len0 + piecesLenSum rest = data.length := by
    rw [← hlen]; simp [piecesLenSum]
  have hcond : (startsLine && data.run.isTrimmableWS off0 len0) = false := by
    rcases hskip with h | h <;> simp [h]
  have hstep : split_state_for data maxWidth startsLine
      = splitLoop data.run data.offset data.length startsLine
          { i := 1, remainingWidth := maxWidth - data.run.advanceForRange off0 len0,
            leftOffset := data.offset, leftLength := len0,
            rightOffset := none, rightLength := none } rest := by
    unfold split_state_for
    rw [hp]
    simp [splitLoop, hadv0, hcond]
  have hst : split_state_for data maxWidth startsLine
      = { i := 1 + rest.length,
          remainingWidth := maxWidth - data.run.advanceForRange off0 len0
            - piecesAdvanceSum data.run rest,
          leftOffset := data.offset, leftLength := len0 + piecesLenSum rest,
          rightOffset := none, rightLength := none } := by
    rw [hstep, splitLoop_all_fit data.run data.offset data.length startsLine rest
      { i := 1, remainingWidth := maxWidth - data.run.advanceForRange off0 len0,
        leftOffset := data.offset, leftLength := len0,
        rightOffset := none, rightLength := none }
      (by simp) hrest_nonneg
      (by show piecesAdvanceSum data.run rest
            ≤ maxWidth - data.run.advanceForRange off0 len0
          linarith)]
  rw [hll] at hst
  simp [split_to_width, split_text_result, hst, hlen0,
    show data.length > 0 by omega]

/-- C2 witness: two non-whitespace pieces of advance 1 each, total 2 ≤ 5,
yield `SplitDidFit(Some((0, 2) box), None)`. -/
theorem split_all_pieces_fit_witness :
    split_to_width (.TextBox plainBoxData { run := fittingRun, offset := 0, length := 2 }) 5 false
      = .ok (.SplitDidFit
          (some (adapt_textbox_with_range plainBoxData fittingRun 0 2)) none) :=
  split_all_pieces_fit plainBoxData { run := fittingRun, offset := 0, length := 2 }
    5 false (0, 1) [(1, 1)] rfl (by decide) rfl
    (fun _ _ => by show (0 : au) ≤ 1; decide) (by decide) (Or.inl rfl)

/-- C3: when the loop decided a right range, the verdict is
`SplitDidNotFit` exactly when only one piece was examined (`i = 1`) or no
left content survived (the left box is `None`); in every other case the
verdict is `SplitDidFit` with both boxes present. -/
theorem split_verdict_rule (d : RenderBoxData) (data : TextBoxData)
    (maxWidth : au) (startsLine : Bool) (ro rl : Nat)
    (hro : (split_state_for data maxWidth startsLine).rightOffset = some ro)
    (hrl : (split_state_for data maxWidth startsLine).rightLength = some rl) :
    (split_to_width (.TextBox d data) maxWidth startsLine
        = .ok (.SplitDidNotFit (left_box_for d data maxWidth startsLine)
            (some (adapt_textbox_with_range d data.run ro rl)))
      ↔ ((split_state_for data maxWidth startsLine).i = 1
          ∨ left_box_for d data maxWidth startsLine = none))
    ∧ (((split_state_for data maxWidth startsLine).i ≠ 1
        ∧ left_box_for d data maxWidth startsLine ≠ none) →
      split_to_width (.TextBox d data) maxWidth startsLine
        = .ok (.SplitDidFit (left_box_for d data maxWidth startsLine)
            (some (adapt_textbox_with_range d data.run ro rl)))) := by
  have key : split_text_result d data maxWidth startsLine
      = if (split_state_for data maxWidth startsLine).i == 1
            || (left_box_for d data maxWidth startsLine).isNone then
          .SplitDidNotFit (left_box_for d data maxWidth startsLine)
            (some (adapt_textbox_with_range d data.run ro rl))
        else
          .SplitDidFit (left_box_for d data maxWidth startsLine)
            (some (adapt_textbox_with_range d data.run ro rl)) := by
    unfold split_text_result left_box_for
    simp only [hro, hrl]
  have he : split_to_width (.TextBox d data) maxWidth startsLine
      = .ok (split_text_result d data maxWidth startsLine) := rfl
  constructor
  · constructor
    · intro heq
      by_contra hnc
      push_neg at hnc
      have hb : ((split_state_for data maxWidth startsLine).i == 1
          || (left_box_for d data maxWidth startsLine).isNone) = false := by
        simp [hnc.1, hnc.2, Option.isSome_iff_ne_none]
      rw [he, key, hb] at heq
      simp only [Bool.false_eq_true, if_false] at heq
      exact SplitBoxResult.noConfusion (Except.ok.inj heq)
    · intro hc
      have hb : ((split_state_for data maxWidth startsLine).i == 1
          || (left_box_for d data maxWidth startsLine).isNone) = true := by
        rcases hc with h | h <;> simp [h]
      rw [he, key, hb]
      simp
  · intro hc
    have hb : ((split_state_for data maxWidth startsLine).i == 1
        || (left_box_for d data maxWidth startsLine).isNone) = false := by
      simp [hc.1, hc.2, Option.isSome_iff_ne_none]
    rw [he, key, hb]
    simp

/-- C3 witness: two pieces of advances 1 and 5 split at width 1: the first
fits, the second forces the right chunk with two pieces examined and left
content present, so the verdict is `SplitDidFit` with both chunks. -/
theorem split_verdict_rule_witness :
    (split_to_width (.TextBox plainBoxData { run := twoPieceRun, offset := 0, length := 2 }) 1 false
        = .ok (.SplitDidNotFit
            (left_box_for plainBoxData { run := twoPieceRun, offset := 0, length := 2 } 1 false)
            (some (adapt_textbox_with_range plainBoxData twoPieceRun 1 1)))
      ↔ ((split_state_for { run := twoPieceRun, offset := 0, length := 2 } 1 false).i = 1
          ∨ left_box_for plainBoxData { run := twoPieceRun, offset := 0, length := 2 } 1 false
              = none))
    ∧ (((split_state_for { run := twoPieceRun, offset := 0, length := 2 } 1 false).i ≠ 1
        ∧ left_box_for plainBoxData { run := twoPieceRun, offset := 0, length := 2 } 1 false
            ≠ none) →
      split_to_width (.TextBox plainBoxData { run := twoPieceRun, offset := 0, length := 2 }) 1 false
        = .ok (.SplitDidFit
            (left_box_for plainBoxData { run := twoPieceRun, offset := 0, length := 2 } 1 false)
            (some (adapt_textbox_with_range plainBoxData twoPieceRun 1 1)))) :=
  split_verdict_rule plainBoxData { run := twoPieceRun, offset := 0, length := 2 }
    1 false 1 1 rfl rfl

/-- C4: with `starts_line = true`, a first piece of trimmable whitespace
that fits is skipped: the loop continues on the remaining pieces with the
full width still available and the left offset advanced past the
whitespace, the final left offset is the box's offset plus the skipped
length, and any left box produced carries that offset. -/
theorem split_skips_leading_ws (d : RenderBoxData) (data : TextBoxData)
    (maxWidth : au) (p0 : Nat × Nat) (rest : List (Nat × Nat))
    (hp : data.run.indivisiblePieces data.offset data.length = p0 :: rest)
    (hws : data.run.isTrimmableWS p0.1 p0.2 = true)
    (hadv : data.run.advanceForRange p0.1 p0.2 ≤ maxWidth) :
    split_state_for data maxWidth true
      = splitLoop data.run data.offset data.length true
          { i := 1, remainingWidth := maxWidth, leftOffset := data.offset + p0.2,
            leftLength := 0, rightOffset := none, rightLength := none } rest
    ∧ (split_state_for data maxWidth true).leftOffset = data.offset + p0.2
    ∧ ∀ b, (split_text_result d data maxWidth true).leftBox = some b →
        b.textOffset = some (data.offset + p0.2) := by
  obtain ⟨off0, len0⟩ := p0
  have h1 : split_state_for data maxWidth true
      = splitLoop data.run data.offset data.length true
          { i := 1, remainingWidth := maxWidth, leftOffset := data.offset + len0,
            leftLength := 0, rightOffset := none, rightLength := none } rest := by
    unfold split_state_for
    rw [hp]
    simp [splitLoop, hadv, hws]
  have h2 : (split_state_for data maxWidth true).leftOffset = data.offset + len0 := by
    rw [h1]
    exact splitLoop_leftOffset_stable data.run data.offset data.length true rest _
      (by simp)
  refine ⟨h1, h2, fun b hb => ?_⟩
  rw [split_text_result_leftBox] at hb
  unfold left_box_for at hb
  simp only at hb
  split at hb
  · obtain rfl := Option.some.inj hb
    simp [adapt_textbox_with_range, RenderBox.textOffset, h2]
  · exact Option.noConfusion hb

theorem prefWidthLines_le (run : TextRun) (ls : List (Nat × Nat)) (acc : au) :
    acc ≤ prefWidthLines run acc ls
    ∧ ∀ l ∈ ls, l.2 ≠ 0 → lineAdvanceSum run l.1 l.2 ≤ prefWidthLines run acc ls := by
  induction ls generalizing acc with
  | nil => exact ⟨le_refl _, by simp⟩
  | cons l rest ih =>
    obtain ⟨lo, ll⟩ := l
    by_cases hz : (ll == 0) = true
    · rw [prefWidthLines, if_pos hz]
      obtain ⟨h1, h2⟩ := ih acc
      refine ⟨h1, ?_⟩
      intro l2 hl hnz
      rcases List.mem_cons.mp hl with rfl | hl2
      · simp only [beq_iff_eq] at hz
        exact absurd hz hnz
      · exact h2 l2 hl2 hnz
    · rw [prefWidthLines, if_neg hz]
      obtain ⟨h1, h2⟩ := ih (max acc (lineAdvanceSum run lo ll))
      refine ⟨le_trans (le_max_left _ _) h1, ?_⟩
      intro l2 hl hnz
      rcases List.mem_cons.mp hl with rfl | hl2
      · exact le_trans (le_max_right _ _) h1
      · exact h2 l2 hl2 hnz

theorem prefWidthLines_attained (run : TextRun) (ls : List (Nat × Nat)) (acc : au) :
    prefWidthLines run acc ls = acc
    ∨ ∃ l ∈ ls, l.2 ≠ 0 ∧ prefWidthLines run acc ls = lineAdvanceSum run l.1 l.2 := by
  induction ls generalizing acc with
  | nil => exact Or.inl rfl
  | cons l rest ih =>
    obtain ⟨lo, ll⟩ := l
    by_cases hz : (ll == 0) = true
    · rw [prefWidthLines, if_pos hz]
      rcases ih acc with h | ⟨l2, hmem, hnz, heq⟩
      · exact Or.inl h
      · exact Or.inr ⟨l2, by simp [hmem], hnz, heq⟩
    · rw [prefWidthLines, if_neg hz]
      have hll : ll ≠ 0 := by simpa using hz
      rcases ih (max acc (lineAdvanceSum run lo ll)) with h | ⟨l2, hmem, hnz, heq⟩
      · rcases max_choice acc (lineAdvanceSum run lo ll) with hm | hm
        · exact Or.inl (h.trans hm)
        · exact Or.inr ⟨(lo, ll), by simp, hll, h.trans hm⟩
      · exact Or.inr ⟨l2, by simp [hmem], hnz, heq⟩

/-- C5: on a Text box, `get_pref_width` returns the maximum, over the
natural (hard-break-delimited) lines of the box's range, of the summed
per-glyph advances of the line, with zero-length lines (lone newlines)
skipped: every skipped-free line's sum is bounded by the result, and the
result is either attained at some such line or is the zero fallback; in
particular a range with an embedded hard break reports the maximum
single-line sum, not the total. -/
theorem get_pref_width_text_max (d : RenderBoxData) (data : TextBoxData) :
    ∃ P, get_pref_width (.TextBox d data) = .ok P
    ∧ (∀ l ∈ data.run.naturalLines data.offset data.length,
        l.2 ≠ 0 → lineAdvanceSum data.run l.1 l.2 ≤ P)
    ∧ (P = 0 ∨ ∃ l ∈ data.run.naturalLines data.offset data.length,
        l.2 ≠ 0 ∧ P = lineAdvanceSum data.run l.1 l.2) := by
  refine ⟨prefWidthLines data.run 0 (data.run.naturalLines data.offset data.length),
    rfl, ?_, ?_⟩
  · exact (prefWidthLines_le data.run _ 0).2
  · exact prefWidthLines_attained data.run _ 0

/-- C5 witness: the three-line run (sums 7, skipped lone newline, 3) over
range `(0, 5)`: the preferred width satisfies the maximum
characterization. -/
theorem get_pref_width_text_max_witness :
    ∃ P, get_pref_width (.TextBox plainBoxData { run := twoLineRun, offset := 0, length := 5 })
        = .ok P
    ∧ (∀ l ∈ twoLineRun.naturalLines 0 5,
        l.2 ≠ 0 → lineAdvanceSum twoLineRun l.1 l.2 ≤ P)
    ∧ (P = 0 ∨ ∃ l ∈ twoLineRun.naturalLines 0 5,
        l.2 ≠ 0 ∧ P = lineAdvanceSum twoLineRun l.1 l.2) :=
  get_pref_width_text_max plainBoxData { run := twoLineRun, offset := 0, length := 5 }

/-- C4 witness: leading whitespace piece `(0, 1)` of advance 1 at width 5
is skipped; the left box starts at offset 1 with no width consumed. -/
theorem split_skips_leading_ws_witness :
    split_state_for { run := leadingWsRun, offset := 0, length := 2 } 5 true
      = splitLoop leadingWsRun 0 2 true
          { i := 1, remainingWidth := 5, leftOffset := 0 + 1,
            leftLength := 0, rightOffset := none, rightLength := none } [(1, 1)]
    ∧ (split_state_for { run := leadingWsRun, offset := 0, length := 2 } 5 true).leftOffset
        = 0 + 1
    ∧ ∀ b, (split_text_result plainBoxData { run := leadingWsRun, offset := 0, length := 2 }
          5 true).leftBox = some b →
        b.textOffset = some (0 + 1) :=
  split_skips_leading_ws plainBoxData { run := leadingWsRun, offset := 0, length := 2 }
    5 (0, 1) [(1, 1)] rfl rfl (by decide)

end ServoBox
